import Mathlib

/-!
Verification of the common-good media-type repository (RFC 6838 parser).

Characters of the C++ `std::string` are embedded as `Nat` ASCII codes and
strings as `List Nat`.  Throwing constructors become `Except String`
returning functions carrying the exact error-message texts of the source.
Two encodings exist in the repository: `common_good::rfc6838` from
`media_type.hpp` (namespace `common_good.rfc6838` below) and the nested
encoding `common_good::media_type` from the unnamed header (namespace
`common_good.alt` below).
-/

set_option maxHeartbeats 1000000
set_option maxRecDepth 100000

namespace common_good

namespace ascii

/-- ascii.hpp is_digit: character in [0-9] (codes 48..57). -/
def is_digit (c : Nat) : Bool := decide (48 ≤ c ∧ c ≤ 57)

/-- ascii.hpp is_alphabetic_lowercase: character in [a-z] (codes 97..122). -/
def is_alphabetic_lowercase (c : Nat) : Bool := decide (97 ≤ c ∧ c ≤ 122)

/-- ascii.hpp is_alphabetic_uppercase: character in [A-Z] (codes 65..90). -/
def is_alphabetic_uppercase (c : Nat) : Bool := decide (65 ≤ c ∧ c ≤ 90)

/-- ascii.hpp to_lowercase: add 32 to uppercase letters, identity otherwise. -/
def to_lowercase (c : Nat) : Nat := if is_alphabetic_uppercase c then c + 32 else c

/-- ascii.hpp is_alphabetic: [a-zA-Z]. -/
def is_alphabetic (c : Nat) : Bool := is_alphabetic_uppercase c || is_alphabetic_lowercase c

/-- ascii.hpp is_alphanumeric: [a-zA-Z0-9]. -/
def is_alphanumeric (c : Nat) : Bool := is_alphabetic c || is_digit c

end ascii

/-- Convert a Lean string literal to the list of ASCII codes it denotes. -/
def codes (s : String) : List Nat := s.toList.map Char.toNat

namespace rfc6838

open ascii

/-- Character predicate of media_type.hpp is_restricted_name: alphanumeric or
one of the codes of the characters bang, hash, dollar, ampersand, hyphen,
caret, underscore, dot, plus. -/
def is_restricted_char (c : Nat) : Bool :=
  is_alphanumeric c || [33, 35, 36, 38, 45, 94, 95, 46, 43].contains c

/-- media_type.hpp is_restricted_name. -/
def is_restricted_name (s : List Nat) : Bool := s.all is_restricted_char

/-- Character predicate of media_type.hpp is_modified_restricted_name: as
is_restricted_char but without dot and plus. -/
def is_modified_restricted_char (c : Nat) : Bool :=
  is_alphanumeric c || [33, 35, 36, 38, 45, 94, 95].contains c

/-- media_type.hpp is_modified_restricted_name. -/
def is_modified_restricted_name (s : List Nat) : Bool := s.all is_modified_restricted_char

/-- common_good::rfc6838::type, storing the normalized value. -/
structure type where
  value : List Nat
deriving DecidableEq

/-- Validating constructor of common_good::rfc6838::type. -/
def type.make (input : List Nat) : Except String type :=
  if input.isEmpty || decide (127 < input.length) then
    Except.error ("media type: top-level type: lenght required to be [1..127] characters")
  else if !is_alphanumeric (input.headD 0) then
    Except.error ("media type: top-level type: first character required to be alphanumeric")
  else if !is_restricted_name input then
    Except.error ("media type: top-level type: containing non-valid characters")
  else
    Except.ok ⟨input.map to_lowercase⟩

/-- common_good::rfc6838::tree, storing the normalized value (empty for the
standard tree). -/
structure tree where
  value : List Nat
deriving DecidableEq

/-- Validating constructor of common_good::rfc6838::tree. -/
def tree.make (input : List Nat) : Except String tree :=
  if input.isEmpty then
    Except.ok ⟨input⟩
  else if decide (input.length < 2) || decide (127 < input.length) then
    Except.error ("media type: tree: lenght required to be [2..127] characters")
  else if !is_alphanumeric (input.headD 0) then
    Except.error ("media type: tree: first character required to be alphanumeric")
  else if !(input.getLastD 0 == 46) then
    Except.error ("media type: tree: last character required to be \x27.\x27")
  else if !is_modified_restricted_name input.dropLast then
    Except.error ("media type: tree: containing non-valid characters")
  else
    Except.ok ⟨input.map to_lowercase⟩

/-- common_good::rfc6838::subtype, storing the normalized value. -/
structure subtype where
  value : List Nat
deriving DecidableEq

/-- Validating constructor of common_good::rfc6838::subtype. -/
def subtype.make (input : List Nat) : Except String subtype :=
  if input.isEmpty || decide (127 < input.length) then
    Except.error ("media type: subtype: lenght required to be [1..127] characters")
  else if !is_alphanumeric (input.headD 0) then
    Except.error ("media type: subtype: first character required to be alphanumeric")
  else if !is_restricted_name input then
    Except.error ("media type: subtype: containing non-valid characters")
  else
    Except.ok ⟨input.map to_lowercase⟩

/-- common_good::rfc6838::suffix, storing the normalized value with its
leading plus. -/
structure suffix where
  value : List Nat
deriving DecidableEq

/-- Validating constructor of common_good::rfc6838::suffix. -/
def suffix.make (input : List Nat) : Except String suffix :=
  if decide (input.length < 2) || decide (127 < input.length) then
    Except.error ("media type: suffix: lenght required to be [2..127] characters")
  else if !(input.headD 0 == 43) then
    Except.error ("media type: suffix: first character required to be \x27+\x27")
  else if !is_alphanumeric ((input.drop 1).headD 0) then
    Except.error ("media type: suffix: second character required to be alphanumeric")
  else if !is_modified_restricted_name (input.drop 1) then
    Except.error ("media type: suffix: containing non-valid characters")
  else
    Except.ok ⟨input.map to_lowercase⟩

/-- common_good::rfc6838::parameter_name, storing the normalized value. -/
structure parameter_name where
  value : List Nat
deriving DecidableEq

/-- Validating constructor of common_good::rfc6838::parameter_name. -/
def parameter_name.make (input : List Nat) : Except String parameter_name :=
  if input.isEmpty || decide (127 < input.length) then
    Except.error ("media type: parameter name: lenght required to be [1..127] characters")
  else if !is_alphanumeric (input.headD 0) then
    Except.error ("media type: parameter name: first character required to be alphanumeric")
  else if !is_restricted_name input then
    Except.error ("media type: parameter name: containing non-valid characters")
  else
    Except.ok ⟨input.map to_lowercase⟩

/-- common_good::rfc6838::parameter_value, storing the raw (possibly quoted)
backing string verbatim. -/
structure parameter_value where
  backend : List Nat
deriving DecidableEq

/-- parameter_value::inner_string: the content between the surrounding
quotes. -/
def parameter_value.inner_string (p : parameter_value) : List Nat :=
  (p.backend.drop 1).dropLast

/-- Validating constructor of common_good::rfc6838::parameter_value.
Code 34 is the double-quote character. -/
def parameter_value.make (input : List Nat) : Except String parameter_value :=
  if input.isEmpty || decide (127 < input.length) then
    Except.error ("media type: parameter value: lenght required to be [1..127] characters")
  else if input.headD 0 == 34 then
    if input.length == 1 || !(input.getLastD 0 == 34) then
      Except.error ("media type: parameter value: quoted string missing trailing \x27\x22\x27")
    else if input.length == 2 then
      Except.error ("media type: parameter value: quoted string empty")
    else if ((input.drop 1).dropLast).contains 34 then
      Except.error ("media type: parameter value: quoted string containing \x27\x22\x27")
    else
      Except.ok ⟨input⟩
  else if !is_restricted_name input then
    Except.error ("media type: parameter value: non-quoted string containing non-valid characters")
  else
    Except.ok ⟨input⟩

/-- parameter_value::value_view: inner content for a quoted value, the whole
backing string otherwise. -/
def parameter_value.value_view (p : parameter_value) : List Nat :=
  if p.backend.headD 0 == 34 then p.inner_string else p.backend

/-- parameter_value operator==: equality of the unquoted logical values. -/
def parameter_value.beq (a b : parameter_value) : Bool :=
  a.value_view == b.value_view

/-- Split a list at the first occurrence of the code d: none when d is
absent, otherwise the part before d and the part after d. Mirrors the
iterator pattern find / compare with end / advance past the match. -/
def splitAtFirst (d : Nat) (l : List Nat) : Option (List Nat × List Nat) :=
  match l.dropWhile (fun c => !(c == d)) with
  | [] => none
  | _ :: rest => some (l.takeWhile (fun c => !(c == d)), rest)

/-- The tree lambda of media_type::parser: error when the first dot (code 46)
is at the very beginning (also when the remainder is empty), the empty
standard tree when no dot exists, otherwise the part through the dot and
the part after it. -/
def treeSplit (l : List Nat) : Except String (List Nat × List Nat) :=
  if (l.takeWhile (fun c => !(c == 46))).isEmpty then
    Except.error ("media type: parsing: missing tree between \x27/\x27 and \x27.\x27")
  else
    match l.dropWhile (fun c => !(c == 46)) with
    | [] => Except.ok ([], l)
    | _ :: rest => Except.ok (l.takeWhile (fun c => !(c == 46)) ++ [46], rest)

/-- Split a list at the last occurrence of the code d: the part before the
last d, and the part from the last d to the end (empty when d is absent).
Mirrors std::ranges::find_last. -/
def splitAtLast (d : Nat) (l : List Nat) : List Nat × List Nat :=
  match l.reverse.dropWhile (fun c => !(c == d)) with
  | [] => (l, [])
  | _ :: rest => (rest.reverse, d :: (l.reverse.takeWhile (fun c => !(c == d))).reverse)

/-- common_good::rfc6838::media_type. -/
structure media_type where
  type : rfc6838.type
  tree : rfc6838.tree
  subtype : rfc6838.subtype
  suffix : Option rfc6838.suffix
deriving DecidableEq

/-- media_type::parser of media_type.hpp. The parameter section from the
first semicolon (code 59) on is discarded, the slice is split at the first
slash (code 47), the tree is taken through the first dot, the suffix from
the last plus (code 43); the optional suffix is validated at its
declaration, before the type, tree and subtype constructors run in order
inside the final braced constructor call. -/
def media_type.parser (raw : List Nat) : Except String media_type :=
  match splitAtFirst 47 (raw.takeWhile (fun c => !(c == 59))) with
  | none => Except.error ("media type: parsing: missing delimiter \x27/\x27 after type")
  | some (tyS, rest1) =>
    match treeSplit rest1 with
    | Except.error e => Except.error e
    | Except.ok (trS, rest2) =>
      match splitAtLast 43 rest2 with
      | (subS, sufS) =>
        match (if sufS.isEmpty then Except.ok Option.none
               else Except.map Option.some (rfc6838.suffix.make sufS) :
               Except String (Option rfc6838.suffix)) with
        | Except.error e => Except.error e
        | Except.ok suf =>
          match type.make tyS, tree.make trS, subtype.make subS with
          | Except.error e, _, _ => Except.error e
          | Except.ok _, Except.error e, _ => Except.error e
          | Except.ok _, Except.ok _, Except.error e => Except.error e
          | Except.ok ty, Except.ok tr, Except.ok sub => Except.ok ⟨ty, tr, sub, suf⟩

/-- media_type::operator std::string: type, slash, tree, subtype, suffix
(empty when absent). -/
def media_type.str (m : media_type) : List Nat :=
  m.type.value ++ [47] ++ m.tree.value ++ m.subtype.value ++
    (match m.suffix with
     | Option.some s => s.value
     | Option.none => [])

/-- media_type::without_suffix on a const lvalue: a copy built from type,
tree and subtype only. -/
def media_type.without_suffix (m : media_type) : media_type :=
  ⟨m.type, m.tree, m.subtype, Option.none⟩

/-- media_type::without_suffix on an rvalue: reset the suffix and return the
same object. -/
def media_type.without_suffix_move (m : media_type) : media_type :=
  { m with suffix := Option.none }

end rfc6838

namespace alt

open ascii

/-- allowed_characters of the unnamed header: alphanumeric or member of the
given list of codes. -/
def allowed_characters (s : List Nat) (list : List Nat) : Bool :=
  s.all (fun c => is_alphanumeric c || list.contains c)

/-- common_good::media_type::media_top_type of the unnamed header. -/
structure media_top_type where
  value : List Nat
deriving DecidableEq

/-- Validating constructor of media_top_type. -/
def media_top_type.make (input : List Nat) : Except String media_top_type :=
  if input.isEmpty || decide (127 < input.length) then
    Except.error ("media type: top-level type: lenght required to be [1..127] characters")
  else if !is_alphanumeric (input.headD 0) then
    Except.error ("media type: top-level type: first character required to be alphanumeric")
  else if !allowed_characters input [33, 35, 36, 38, 45, 94, 95, 46, 43] then
    Except.error ("media type: top-level type: containing non-valid characters")
  else
    Except.ok ⟨input.map to_lowercase⟩

/-- common_good::media_type::media_tree of the unnamed header. -/
structure media_tree where
  value : List Nat
deriving DecidableEq

/-- Validating constructor of media_tree. -/
def media_tree.make (input : List Nat) : Except String media_tree :=
  if input.isEmpty then
    Except.ok ⟨input⟩
  else if decide (input.length < 2) || decide (127 < input.length) then
    Except.error ("media type: tree: lenght required to be [2..127] characters")
  else if !is_alphanumeric (input.headD 0) then
    Except.error ("media type: tree: first character required to be alphanumeric")
  else if !(input.getLastD 0 == 46) then
    Except.error ("media type: tree: last character required to be \x27.\x27")
  else if !allowed_characters input.dropLast [33, 35, 36, 38, 45, 94, 95] then
    Except.error ("media type: tree: containing non-valid characters")
  else
    Except.ok ⟨input.map to_lowercase⟩

/-- common_good::media_type::media_subtype of the unnamed header. -/
structure media_subtype where
  value : List Nat
deriving DecidableEq

/-- Validating constructor of media_subtype. -/
def media_subtype.make (input : List Nat) : Except String media_subtype :=
  if input.isEmpty || decide (127 < input.length) then
    Except.error ("media type: subtype: lenght required to be [1..127] characters")
  else if !is_alphanumeric (input.headD 0) then
    Except.error ("media type: subtype: first character required to be alphanumeric")
  else if !allowed_characters input [33, 35, 36, 38, 45, 94, 95, 46, 43] then
    Except.error ("media type: subtype: containing non-valid characters")
  else
    Except.ok ⟨input.map to_lowercase⟩

/-- common_good::media_type::media_suffix of the unnamed header. -/
structure media_suffix where
  value : List Nat
deriving DecidableEq

/-- Validating constructor of media_suffix. -/
def media_suffix.make (input : List Nat) : Except String media_suffix :=
  if decide (input.length < 2) || decide (127 < input.length) then
    Except.error ("media type: suffix: lenght required to be [2..127] characters")
  else if !(input.headD 0 == 43) then
    Except.error ("media type: suffix: first character required to be \x27+\x27")
  else if !is_alphanumeric ((input.drop 1).headD 0) then
    Except.error ("media type: suffix: second character required to be alphanumeric")
  else if !allowed_characters (input.drop 1) [33, 35, 36, 38, 45, 94, 95] then
    Except.error ("media type: suffix: containing non-valid characters")
  else
    Except.ok ⟨input.map to_lowercase⟩

/-- common_good::media_type of the unnamed header. -/
structure media_type where
  type : media_top_type
  tree : media_tree
  subtype : media_subtype
  suffix : Option media_suffix
deriving DecidableEq

/-- media_type::parser of the unnamed header. Identical slicing to the
media_type.hpp parser, but each lambda constructs (hence validates) its
component immediately, so the validation order is type, tree, subtype,
suffix. -/
def media_type.parser (raw : List Nat) : Except String media_type :=
  match rfc6838.splitAtFirst 47 (raw.takeWhile (fun c => !(c == 59))) with
  | none => Except.error ("media type: parsing: missing delimiter \x27/\x27 after type")
  | some (tyS, rest1) =>
    match media_top_type.make tyS with
    | Except.error e => Except.error e
    | Except.ok ty =>
      match rfc6838.treeSplit rest1 with
      | Except.error e => Except.error e
      | Except.ok (trS, rest2) =>
        match media_tree.make trS with
        | Except.error e => Except.error e
        | Except.ok tr =>
          match rfc6838.splitAtLast 43 rest2 with
          | (subS, sufS) =>
            match media_subtype.make subS with
            | Except.error e => Except.error e
            | Except.ok sub =>
              match (if sufS.isEmpty then Except.ok Option.none
                     else Except.map Option.some (media_suffix.make sufS) :
                     Except String (Option media_suffix)) with
              | Except.error e => Except.error e
              | Except.ok suf => Except.ok ⟨ty, tr, sub, suf⟩

/-- media_type::operator std::string of the unnamed header: format
type, slash, tree, subtype, suffix (empty when absent). -/
def media_type.str (m : media_type) : List Nat :=
  m.type.value ++ [47] ++ m.tree.value ++ m.subtype.value ++
    (match m.suffix with
     | Option.some s => s.value
     | Option.none => [])

end alt

namespace ascii

theorem to_lowercase_upper (c : Nat) (h : 65 ≤ c ∧ c ≤ 90) : to_lowercase c = c + 32 := by
  simp [to_lowercase, is_alphabetic_uppercase, h]

theorem to_lowercase_other (c : Nat) (h : ¬(65 ≤ c ∧ c ≤ 90)) : to_lowercase c = c := by
  simp [to_lowercase, is_alphabetic_uppercase, h]

theorem alnum_iff (c : Nat) :
    is_alphanumeric c = true ↔ (65 ≤ c ∧ c ≤ 90) ∨ (97 ≤ c ∧ c ≤ 122) ∨ (48 ≤ c ∧ c ≤ 57) := by
  simp [is_alphanumeric, is_alphabetic, is_alphabetic_uppercase, is_alphabetic_lowercase,
    is_digit, or_assoc]

theorem to_lowercase_alnum (c : Nat) : is_alphanumeric (to_lowercase c) = is_alphanumeric c := by
  by_cases h : 65 ≤ c ∧ c ≤ 90
  · rw [to_lowercase_upper c h, Bool.eq_iff_iff, alnum_iff, alnum_iff]
    omega
  · rw [to_lowercase_other c h]

theorem to_lowercase_eq_low (c k : Nat) (hk : k < 65) : to_lowercase c = k ↔ c = k := by
  by_cases h : 65 ≤ c ∧ c ≤ 90
  · rw [to_lowercase_upper c h]; omega
  · rw [to_lowercase_other c h]

theorem to_lowercase_47 : to_lowercase 47 = 47 := rfl

end ascii

namespace rfc6838

open ascii

theorem all_eq_of_pointwise (p q : Nat → Bool) (h : ∀ c, p c = q c) :
    ∀ l : List Nat, l.all p = l.all q := by
  intro l
  induction l with
  | nil => rfl
  | cons a t ih => simp [List.all_cons, h a, ih]

theorem alnum_true_restricted (c : Nat) (h : is_alphanumeric c = true) :
    is_restricted_char c = true := by
  simp [is_restricted_char, h]

theorem alnum_true_modified (c : Nat) (h : is_alphanumeric c = true) :
    is_modified_restricted_char c = true := by
  simp [is_modified_restricted_char, h]

theorem to_lowercase_restricted (c : Nat) :
    is_restricted_char (to_lowercase c) = is_restricted_char c := by
  by_cases h : 65 ≤ c ∧ c ≤ 90
  · have ha : is_alphanumeric c = true := by rw [alnum_iff]; omega
    have hb : is_alphanumeric (to_lowercase c) = true := by rw [to_lowercase_alnum]; exact ha
    rw [alnum_true_restricted _ ha, alnum_true_restricted _ hb]
  · rw [to_lowercase_other c h]

theorem to_lowercase_modified (c : Nat) :
    is_modified_restricted_char (to_lowercase c) = is_modified_restricted_char c := by
  by_cases h : 65 ≤ c ∧ c ≤ 90
  · have ha : is_alphanumeric c = true := by rw [alnum_iff]; omega
    have hb : is_alphanumeric (to_lowercase c) = true := by rw [to_lowercase_alnum]; exact ha
    rw [alnum_true_modified _ ha, alnum_true_modified _ hb]
  · rw [to_lowercase_other c h]

theorem all_map_lower_restricted (s : List Nat) :
    (s.map to_lowercase).all is_restricted_char = s.all is_restricted_char := by
  rw [List.all_map]
  exact all_eq_of_pointwise _ _ (fun c => to_lowercase_restricted c) s

theorem all_map_lower_modified (s : List Nat) :
    (s.map to_lowercase).all is_modified_restricted_char = s.all is_modified_restricted_char := by
  rw [List.all_map]
  exact all_eq_of_pointwise _ _ (fun c => to_lowercase_modified c) s

theorem dropWhile_head_false (p : Nat → Bool) (l : List Nat) (x : Nat) (rest : List Nat)
    (h : l.dropWhile p = x :: rest) : p x = false := by
  induction l with
  | nil => simp [List.dropWhile] at h
  | cons a t ih =>
    rw [List.dropWhile_cons] at h
    by_cases hp : p a = true
    · rw [if_pos hp] at h
      exact ih h
    · rw [if_neg hp] at h
      injection h with h1 _
      rw [h1] at hp
      simpa using hp

theorem takeWhile_eq_self (p : Nat → Bool) (l : List Nat) (h : ∀ x ∈ l, p x = true) :
    l.takeWhile p = l := List.takeWhile_eq_self_iff.mpr h

theorem dropWhile_eq_nil (p : Nat → Bool) (l : List Nat) (h : ∀ x ∈ l, p x = true) :
    l.dropWhile p = [] := List.dropWhile_eq_nil_iff.mpr h

theorem takeWhile_all_append (p : Nat → Bool) (a : List Nat) (c : Nat) (b : List Nat)
    (ha : ∀ x ∈ a, p x = true) (hc : p c = false) :
    (a ++ c :: b).takeWhile p = a := by
  induction a with
  | nil => simp [List.takeWhile_cons, hc]
  | cons y t ih =>
    have hy : p y = true := ha y (by simp)
    simp only [List.cons_append, List.takeWhile_cons, hy, if_true]
    rw [ih (fun x hx => ha x (by simp [hx]))]

theorem dropWhile_all_append (p : Nat → Bool) (a : List Nat) (c : Nat) (b : List Nat)
    (ha : ∀ x ∈ a, p x = true) (hc : p c = false) :
    (a ++ c :: b).dropWhile p = c :: b := by
  induction a with
  | nil => simp [List.dropWhile_cons, hc]
  | cons y t ih =>
    have hy : p y = true := ha y (by simp)
    simp only [List.cons_append, List.dropWhile_cons, hy, if_true]
    exact ih (fun x hx => ha x (by simp [hx]))

theorem ne_mem_pred (d : Nat) (l : List Nat) (h : d ∉ l) :
    ∀ x ∈ l, (!(x == d)) = true := by
  intro x hx
  simp only [Bool.not_eq_true', beq_eq_false_iff_ne, ne_eq]
  intro he
  exact h (he ▸ hx)

theorem splitAtFirst_eq_some (d : Nat) (l a b : List Nat)
    (h : splitAtFirst d l = some (a, b)) :
    l = a ++ d :: b ∧ a = l.takeWhile (fun c => !(c == d)) := by
  unfold splitAtFirst at h
  cases hd : l.dropWhile (fun c => !(c == d)) with
  | nil => rw [hd] at h; cases h
  | cons x rest =>
    rw [hd] at h
    have hx : x = d := by
      have := dropWhile_head_false _ _ _ _ hd
      simpa using this
    subst hx
    injection h with h1
    injection h1 with h2 h3
    constructor
    · rw [← h2, ← h3, ← hd]
      exact (List.takeWhile_append_dropWhile _ _).symm
    · exact h2.symm

theorem splitAtFirst_eq_none (d : Nat) (l : List Nat) (h : d ∉ l) :
    splitAtFirst d l = none := by
  unfold splitAtFirst
  rw [dropWhile_eq_nil _ _ (ne_mem_pred d l h)]

theorem treeSplit_ok_append (l t r : List Nat) (h : treeSplit l = Except.ok (t, r)) :
    l = t ++ r := by
  unfold treeSplit at h
  by_cases he : (l.takeWhile (fun c => !(c == 46))).isEmpty = true
  · rw [if_pos he] at h; cases h
  · rw [if_neg he] at h
    cases hd : l.dropWhile (fun c => !(c == 46)) with
    | nil =>
      rw [hd] at h
      injection h with h1
      injection h1 with h2 h3
      rw [← h2, ← h3]
      rfl
    | cons x rest =>
      rw [hd] at h
      have hx : x = 46 := by
        have := dropWhile_head_false _ _ _ _ hd
        simpa using this
      subst hx
      injection h with h1
      injection h1 with h2 h3
      rw [← h2, ← h3, List.append_assoc]
      simp only [List.singleton_append]
      rw [← hd]
      exact (List.takeWhile_append_dropWhile _ _).symm

theorem treeSplit_nil :
    treeSplit [] =
      Except.error ("media type: parsing: missing tree between \x27/\x27 and \x27.\x27") := rfl

theorem treeSplit_head_dot (b : List Nat) :
    treeSplit (46 :: b) =
      Except.error ("media type: parsing: missing tree between \x27/\x27 and \x27.\x27") := rfl

theorem treeSplit_no_dot (l : List Nat) (hne : l ≠ []) (h : 46 ∉ l) :
    treeSplit l = Except.ok ([], l) := by
  have hall := ne_mem_pred 46 l h
  unfold treeSplit
  rw [takeWhile_eq_self _ _ hall, dropWhile_eq_nil _ _ hall]
  rw [if_neg (by simpa [List.isEmpty_iff] using hne)]

theorem treeSplit_with_dot (a b : List Nat) (hne : a ≠ []) (h : 46 ∉ a) :
    treeSplit (a ++ 46 :: b) = Except.ok (a ++ [46], b) := by
  have hall := ne_mem_pred 46 a h
  have hc : (!(46 == 46 : Bool)) = false := by simp
  unfold treeSplit
  rw [takeWhile_all_append _ _ _ _ hall hc, dropWhile_all_append _ _ _ _ hall hc]
  rw [if_neg (by simpa [List.isEmpty_iff] using hne)]

theorem splitAtLast_not_mem (d : Nat) (l : List Nat) (h : d ∉ l) :
    splitAtLast d l = (l, []) := by
  have hrev : d ∉ l.reverse := by simpa using h
  unfold splitAtLast
  rw [dropWhile_eq_nil _ _ (ne_mem_pred d l.reverse hrev)]

theorem splitAtLast_append_last (d : Nat) (a b : List Nat) (hb : d ∉ b) :
    splitAtLast d (a ++ d :: b) = (a, d :: b) := by
  have hbr : d ∉ b.reverse := by simpa using hb
  have hall := ne_mem_pred d b.reverse hbr
  have hc : (!(d == d : Bool)) = false := by simp
  have hrev : (a ++ d :: b).reverse = b.reverse ++ d :: a.reverse := by
    simp
  unfold splitAtLast
  rw [hrev, dropWhile_all_append _ _ _ _ hall hc, takeWhile_all_append _ _ _ _ hall hc]
  simp

theorem splitAtLast_of_last (d : Nat) (l t : List Nat) (h : l.reverse = d :: t) :
    splitAtLast d l = (t.reverse, [d]) := by
  have hc : (!(d == d : Bool)) = false := by simp
  unfold splitAtLast
  rw [h, List.dropWhile_cons, List.takeWhile_cons, hc]
  simp

theorem splitAtLast_append (d : Nat) (l : List Nat) :
    (splitAtLast d l).1 ++ (splitAtLast d l).2 = l := by
  cases hd : l.reverse.dropWhile (fun c => !(c == d)) with
  | nil =>
    unfold splitAtLast
    rw [hd]
    simp
  | cons x rest =>
    have hx : x = d := by
      have := dropWhile_head_false _ _ _ _ hd
      simpa using this
    rw [hx] at hd
    unfold splitAtLast
    rw [hd]
    have h1 : (l.reverse.takeWhile (fun c => !(c == d))) ++ (d :: rest) = l.reverse := by
      rw [← hd]
      exact List.takeWhile_append_dropWhile _ _
    have h2 := congrArg List.reverse h1
    simp only [List.reverse_append, List.reverse_cons, List.reverse_reverse] at h2
    simpa using h2

theorem type_make_ok (i : List Nat) (v : type) (h : type.make i = Except.ok v) :
    v.value = i.map to_lowercase := by
  unfold type.make at h
  split at h
  · cases h
  · split at h
    · cases h
    · split at h
      · cases h
      · cases h
        rfl

theorem tree_make_ok (i : List Nat) (v : tree) (h : tree.make i = Except.ok v) :
    v.value = i.map to_lowercase := by
  unfold tree.make at h
  split at h
  · next hemp =>
    cases h
    have : i = [] := by simpa [List.isEmpty_iff] using hemp
    simp [this]
  · split at h
    · cases h
    · split at h
      · cases h
      · split at h
        · cases h
        · split at h
          · cases h
          · cases h
            rfl

theorem subtype_make_ok (i : List Nat) (v : subtype) (h : subtype.make i = Except.ok v) :
    v.value = i.map to_lowercase := by
  unfold subtype.make at h
  split at h
  · cases h
  · split at h
    · cases h
    · split at h
      · cases h
      · cases h
        rfl

theorem suffix_make_ok (i : List Nat) (v : suffix) (h : suffix.make i = Except.ok v) :
    v.value = i.map to_lowercase := by
  unfold suffix.make at h
  split at h
  · cases h
  · split at h
    · cases h
    · split at h
      · cases h
      · split at h
        · cases h
        · cases h
          rfl

theorem map_lower_headD (s t : List Nat) (h : s.map to_lowercase = t.map to_lowercase) :
    to_lowercase (s.headD 0) = to_lowercase (t.headD 0) := by
  cases s with
  | nil =>
    cases t with
    | nil => rfl
    | cons b tb => simp at h
  | cons a ta =>
    cases t with
    | nil => simp at h
    | cons b tb =>
      simp only [List.map_cons, List.cons.injEq] at h
      simpa using h.1

theorem map_lower_length (s t : List Nat) (h : s.map to_lowercase = t.map to_lowercase) :
    s.length = t.length := by
  rw [← List.length_map s to_lowercase, h, List.length_map]

theorem map_lower_isEmpty (s t : List Nat) (h : s.map to_lowercase = t.map to_lowercase) :
    s.isEmpty = t.isEmpty := by
  cases s <;> cases t <;> simp_all

theorem getLastD_eq_reverse_headD (l : List Nat) : l.getLastD 0 = l.reverse.headD 0 := by
  cases h : l.reverse with
  | nil =>
    have hl : l = [] := List.reverse_eq_nil_iff.mp h
    rw [hl]
    rfl
  | cons x t =>
    have hl : l = t.reverse ++ [x] := by
      rw [← l.reverse_reverse, h]
      simp
    rw [hl]
    simp [List.getLastD_concat]

theorem map_lower_getLastD (s t : List Nat) (h : s.map to_lowercase = t.map to_lowercase) :
    to_lowercase (s.getLastD 0) = to_lowercase (t.getLastD 0) := by
  rw [getLastD_eq_reverse_headD, getLastD_eq_reverse_headD]
  apply map_lower_headD
  rw [List.map_reverse, List.map_reverse, h]

theorem map_lower_headD_alnum (s t : List Nat) (h : s.map to_lowercase = t.map to_lowercase) :
    is_alphanumeric (s.headD 0) = is_alphanumeric (t.headD 0) := by
  rw [← to_lowercase_alnum, map_lower_headD s t h, to_lowercase_alnum]

theorem map_lower_restricted_name (s t : List Nat) (h : s.map to_lowercase = t.map to_lowercase) :
    is_restricted_name s = is_restricted_name t := by
  unfold is_restricted_name
  rw [← all_map_lower_restricted, h, all_map_lower_restricted]

theorem map_lower_modified_name (s t : List Nat) (h : s.map to_lowercase = t.map to_lowercase) :
    is_modified_restricted_name s = is_modified_restricted_name t := by
  unfold is_modified_restricted_name
  rw [← all_map_lower_modified, h, all_map_lower_modified]

theorem map_lower_headD_eq_low (s t : List Nat) (k : Nat) (hk : k < 65)
    (h : s.map to_lowercase = t.map to_lowercase) :
    (s.headD 0 == k) = (t.headD 0 == k) := by
  rw [Bool.eq_iff_iff, beq_iff_eq, beq_iff_eq,
    ← to_lowercase_eq_low (s.headD 0) k hk, map_lower_headD s t h,
    to_lowercase_eq_low (t.headD 0) k hk]

theorem map_lower_getLastD_eq_low (s t : List Nat) (k : Nat) (hk : k < 65)
    (h : s.map to_lowercase = t.map to_lowercase) :
    (s.getLastD 0 == k) = (t.getLastD 0 == k) := by
  rw [Bool.eq_iff_iff, beq_iff_eq, beq_iff_eq,
    ← to_lowercase_eq_low (s.getLastD 0) k hk, map_lower_getLastD s t h,
    to_lowercase_eq_low (t.getLastD 0) k hk]

theorem type_make_congr (s t : List Nat) (h : s.map to_lowercase = t.map to_lowercase) :
    type.make s = type.make t := by
  have hlen := map_lower_length s t h
  have hempty := map_lower_isEmpty s t h
  have hhead := map_lower_headD_alnum s t h
  have hres := map_lower_restricted_name s t h
  unfold type.make
  rw [hlen, hempty, hhead, hres, h]

theorem tree_make_congr (s t : List Nat) (h : s.map to_lowercase = t.map to_lowercase) :
    tree.make s = tree.make t := by
  have hlen := map_lower_length s t h
  have hempty := map_lower_isEmpty s t h
  have hhead := map_lower_headD_alnum s t h
  have hback := map_lower_getLastD_eq_low s t 46 (by omega) h
  have hdl : s.dropLast.map to_lowercase = t.dropLast.map to_lowercase := by
    rw [List.map_dropLast, List.map_dropLast, h]
  have hmod := map_lower_modified_name s.dropLast t.dropLast hdl
  have hemp2 : s = [] ↔ t = [] := by
    constructor
    · intro hs
      cases t with
      | nil => rfl
      | cons b tb => rw [hs] at h; simp at h
    · intro ht
      cases s with
      | nil => rfl
      | cons a ta => rw [ht] at h; simp at h
  by_cases hs : s.isEmpty = true
  · have hseq : s = [] := by simpa [List.isEmpty_iff] using hs
    have hteq : t = [] := hemp2.mp hseq
    rw [hseq, hteq]
  · have ht : ¬t.isEmpty = true := by rw [← hempty]; exact hs
    unfold tree.make
    rw [hlen, hempty, hhead, hback, hmod, h, if_neg ht, if_neg ht]

theorem subtype_make_congr (s t : List Nat) (h : s.map to_lowercase = t.map to_lowercase) :
    subtype.make s = subtype.make t := by
  have hlen := map_lower_length s t h
  have hempty := map_lower_isEmpty s t h
  have hhead := map_lower_headD_alnum s t h
  have hres := map_lower_restricted_name s t h
  unfold subtype.make
  rw [hlen, hempty, hhead, hres, h]

theorem suffix_make_congr (s t : List Nat) (h : s.map to_lowercase = t.map to_lowercase) :
    suffix.make s = suffix.make t := by
  have hlen := map_lower_length s t h
  have hhead := map_lower_headD_eq_low s t 43 (by omega) h
  have hdrop : (s.drop 1).map to_lowercase = (t.drop 1).map to_lowercase := by
    rw [List.map_drop, List.map_drop, h]
  have hsecond := map_lower_headD_alnum (s.drop 1) (t.drop 1) hdrop
  have hmod := map_lower_modified_name (s.drop 1) (t.drop 1) hdrop
  unfold suffix.make
  rw [hlen, hhead, hsecond, hmod, h]

theorem parser_ok_inversion (raw : List Nat) (m : media_type)
    (h : media_type.parser raw = Except.ok m) :
    ∃ tyS rest1 trS rest2 subS sufS,
      splitAtFirst 47 (raw.takeWhile (fun c => !(c == 59))) = some (tyS, rest1) ∧
      treeSplit rest1 = Except.ok (trS, rest2) ∧
      splitAtLast 43 rest2 = (subS, sufS) ∧
      type.make tyS = Except.ok m.type ∧
      tree.make trS = Except.ok m.tree ∧
      subtype.make subS = Except.ok m.subtype ∧
      ((sufS = [] ∧ m.suffix = Option.none) ∨
        (∃ v, suffix.make sufS = Except.ok v ∧ m.suffix = Option.some v)) := by
  unfold media_type.parser at h
  split at h
  · cases h
  · rename_i tyS rest1 hs
    split at h
    · cases h
    · rename_i q trS rest2 ht
      rcases hsl : splitAtLast 43 rest2 with ⟨subS, sufS⟩
      rw [hsl] at h
      simp only [] at h
      cases hsuf : (if sufS.isEmpty then Except.ok Option.none
          else Except.map Option.some (suffix.make sufS) :
          Except String (Option rfc6838.suffix)) with
      | error e => rw [hsuf] at h; cases h
      | ok suf =>
        rw [hsuf] at h
        cases hty : type.make tyS with
        | error e => rw [hty] at h; cases h
        | ok ty =>
          rw [hty] at h
          cases htr : tree.make trS with
          | error e => rw [htr] at h; cases h
          | ok tr =>
            rw [htr] at h
            cases hsub : subtype.make subS with
            | error e => rw [hsub] at h; cases h
            | ok sub =>
              rw [hsub] at h
              injection h with h1
              refine ⟨tyS, rest1, trS, rest2, subS, sufS, hs, ht, hsl, ?_, ?_, ?_, ?_⟩
              · rw [← h1, hty]
              · rw [← h1, htr]
              · rw [← h1, hsub]
              · rw [← h1]
                by_cases hemp : sufS.isEmpty = true
                · rw [if_pos hemp] at hsuf
                  injection hsuf with h2
                  exact Or.inl ⟨by simpa [List.isEmpty_iff] using hemp, h2.symm⟩
                · rw [if_neg hemp] at hsuf
                  cases hmk : suffix.make sufS with
                  | error e =>
                    rw [hmk] at hsuf
                    cases hsuf
                  | ok v =>
                    rw [hmk] at hsuf
                    injection hsuf with h2
                    exact Or.inr ⟨v, rfl, h2.symm⟩

theorem parser_roundtrip (l : List Nat) (m : media_type) (hsemi : 59 ∉ l)
    (h : media_type.parser l = Except.ok m) :
    m.str = l.map to_lowercase := by
  have hslice : l.takeWhile (fun c => !(c == 59)) = l :=
    takeWhile_eq_self _ _ (ne_mem_pred 59 l hsemi)
  obtain ⟨tyS, rest1, trS, rest2, subS, sufS, hs, ht, hsl, hty, htr, hsub, hsuf⟩ :=
    parser_ok_inversion l m h
  rw [hslice] at hs
  obtain ⟨hl, -⟩ := splitAtFirst_eq_some 47 l tyS rest1 hs
  have hrest1 : rest1 = trS ++ rest2 := treeSplit_ok_append rest1 trS rest2 ht
  have hrest2 : rest2 = subS ++ sufS := by
    have h2 := splitAtLast_append 43 rest2
    rw [hsl] at h2
    simpa using h2.symm
  have hv1 := type_make_ok tyS m.type hty
  have hv2 := tree_make_ok trS m.tree htr
  have hv3 := subtype_make_ok subS m.subtype hsub
  have hv4 : (match m.suffix with
      | Option.some s => s.value
      | Option.none => []) = sufS.map to_lowercase := by
    rcases hsuf with ⟨hnil, hnone⟩ | ⟨v, hmk, hsome⟩
    · rw [hnone, hnil]
      rfl
    · rw [hsome]
      exact suffix_make_ok sufS v hmk
  have h47 : to_lowercase 47 = 47 := rfl
  unfold media_type.str
  rw [hv1, hv2, hv3, hv4, hl, hrest1, hrest2]
  simp [List.map_append, List.map_cons, h47]

theorem parser_no_slash (raw : List Nat)
    (h : 47 ∉ raw.takeWhile (fun c => !(c == 59))) :
    media_type.parser raw =
      Except.error ("media type: parsing: missing delimiter \x27/\x27 after type") := by
  unfold media_type.parser
  rw [splitAtFirst_eq_none 47 _ h]

theorem parser_tree_error (raw : List Nat) (tyS rest1 : List Nat) (e : String)
    (hs : splitAtFirst 47 (raw.takeWhile (fun c => !(c == 59))) = some (tyS, rest1))
    (ht : treeSplit rest1 = Except.error e) :
    media_type.parser raw = Except.error e := by
  unfold media_type.parser
  rw [hs]
  simp only []
  rw [ht]

theorem getLast?_mem_of_eq (l : List Nat) (x : Nat) (h : l.getLast? = some x) : x ∈ l := by
  have hh : l.reverse.head? = some x := by rw [List.head?_reverse, h]
  have : x ∈ l.reverse := List.mem_of_mem_head? (by simp [hh])
  simpa using this

theorem treeSplit_ok_shape (l t r : List Nat) (h : treeSplit l = Except.ok (t, r)) :
    (t = [] ∧ r = l) ∨ t.getLast? = some 46 := by
  unfold treeSplit at h
  by_cases he : (l.takeWhile (fun c => !(c == 46))).isEmpty = true
  · rw [if_pos he] at h; cases h
  · rw [if_neg he] at h
    cases hd : l.dropWhile (fun c => !(c == 46)) with
    | nil =>
      rw [hd] at h
      injection h with h1
      injection h1 with h2 h3
      exact Or.inl ⟨h2.symm, h3.symm⟩
    | cons x rest =>
      rw [hd] at h
      injection h with h1
      injection h1 with h2 h3
      rw [← h2]
      exact Or.inr (List.getLast?_concat _)

theorem splitAtLast_snd_nil (d : Nat) (l a : List Nat) (h : splitAtLast d l = (a, [])) :
    d ∉ l := by
  unfold splitAtLast at h
  cases hd : l.reverse.dropWhile (fun c => !(c == d)) with
  | nil =>
    intro hmem
    have hrev : d ∈ l.reverse := by simpa using hmem
    have hall := List.dropWhile_eq_nil_iff.mp hd d hrev
    simp at hall
  | cons x rest =>
    rw [hd] at h
    injection h with _ h2
    cases h2

theorem parser_trailing_plus (raw : List Nat)
    (h : (raw.takeWhile (fun c => !(c == 59))).getLast? = some 43) :
    ∃ e, media_type.parser raw = Except.error e := by
  cases hp : media_type.parser raw with
  | error e => exact ⟨e, rfl⟩
  | ok m =>
    exfalso
    obtain ⟨tyS, rest1, trS, rest2, subS, sufS, hs, ht, hsl, hty, htr, hsub, hsuf⟩ :=
      parser_ok_inversion raw m hp
    obtain ⟨hl, -⟩ := splitAtFirst_eq_some 47 _ tyS rest1 hs
    rw [hl, List.getLast?_append] at h
    have h1 : rest1.getLast? = some 43 := by
      have hc : (47 :: rest1).getLast? = rest1.getLast?.or (some 47) := by
        have h47 : (47 :: rest1) = [47] ++ rest1 := rfl
        rw [h47, List.getLast?_append]
        rfl
      rw [hc] at h
      cases hg : rest1.getLast? with
      | none => rw [hg] at h; simp [Option.or] at h
      | some y =>
        rw [hg] at h
        simp [Option.or] at h
        rw [h]
    have hrest1eq := treeSplit_ok_append rest1 trS rest2 ht
    have h2 : rest2.getLast? = some 43 := by
      rcases treeSplit_ok_shape rest1 trS rest2 ht with ⟨htnil, hreq⟩ | h46
      · exact hreq ▸ h1
      · rw [hrest1eq, List.getLast?_append] at h1
        cases hg : rest2.getLast? with
        | none => rw [hg, h46] at h1; simp [Option.or] at h1
        | some y =>
          rw [hg] at h1
          simp [Option.or] at h1
          rw [h1]
    have hrev : rest2.reverse.head? = some 43 := by rw [List.head?_reverse, h2]
    cases hrevc : rest2.reverse with
    | nil => rw [hrevc] at hrev; cases hrev
    | cons x t =>
      rw [hrevc] at hrev
      simp only [List.head?_cons, Option.some.injEq] at hrev
      rw [hrev] at hrevc
      have hspl := splitAtLast_of_last 43 rest2 t hrevc
      rw [hsl] at hspl
      injection hspl with hsubS hsufS
      rcases hsuf with ⟨hnil, -⟩ | ⟨v, hmk, -⟩
      · rw [hsufS] at hnil
        cases hnil
      · rw [hsufS] at hmk
        have hbad : suffix.make [43] =
            Except.error ("media type: suffix: lenght required to be [2..127] characters") := rfl
        rw [hbad] at hmk
        cases hmk

theorem parser_no_plus_suffix (raw : List Nat) (m : media_type)
    (h : media_type.parser raw = Except.ok m)
    (hplus : 43 ∉ raw.takeWhile (fun c => !(c == 59))) :
    m.suffix = Option.none := by
  obtain ⟨tyS, rest1, trS, rest2, subS, sufS, hs, ht, hsl, hty, htr, hsub, hsuf⟩ :=
    parser_ok_inversion raw m h
  obtain ⟨hl, -⟩ := splitAtFirst_eq_some 47 _ tyS rest1 hs
  have h1 : 43 ∉ rest1 := by
    intro hm
    exact hplus (by rw [hl]; simp [hm])
  have h2 : 43 ∉ rest2 := by
    rw [treeSplit_ok_append rest1 trS rest2 ht] at h1
    intro hm
    exact h1 (by simp [hm])
  rw [splitAtLast_not_mem 43 rest2 h2] at hsl
  injection hsl with hsubS hsufS
  rcases hsuf with ⟨-, hnone⟩ | ⟨v, hmk, -⟩
  · exact hnone
  · exfalso
    rw [← hsufS] at hmk
    have hbad : suffix.make [] =
        Except.error ("media type: suffix: lenght required to be [2..127] characters") := rfl
    rw [hbad] at hmk
    cases hmk

theorem alt_top_type_agrees (l : List Nat) :
    alt.media_top_type.make l =
      (type.make l).map (fun v => (⟨v.value⟩ : alt.media_top_type)) := by
  unfold alt.media_top_type.make type.make
  have hres : alt.allowed_characters l [33, 35, 36, 38, 45, 94, 95, 46, 43] =
      is_restricted_name l := rfl
  rw [hres]
  by_cases h1 : (l.isEmpty || decide (127 < l.length)) = true
  · rw [if_pos h1, if_pos h1]
    rfl
  · rw [if_neg h1, if_neg h1]
    by_cases h2 : (!is_alphanumeric (l.headD 0)) = true
    · rw [if_pos h2, if_pos h2]
      rfl
    · rw [if_neg h2, if_neg h2]
      by_cases h3 : (!is_restricted_name l) = true
      · rw [if_pos h3, if_pos h3]
        rfl
      · rw [if_neg h3, if_neg h3]
        rfl

theorem alt_tree_agrees (l : List Nat) :
    alt.media_tree.make l =
      (tree.make l).map (fun v => (⟨v.value⟩ : alt.media_tree)) := by
  unfold alt.media_tree.make tree.make
  have hres : alt.allowed_characters l.dropLast [33, 35, 36, 38, 45, 94, 95] =
      is_modified_restricted_name l.dropLast := rfl
  rw [hres]
  by_cases h0 : l.isEmpty = true
  · rw [if_pos h0, if_pos h0]
    rfl
  · rw [if_neg h0, if_neg h0]
    by_cases h1 : (decide (l.length < 2) || decide (127 < l.length)) = true
    · rw [if_pos h1, if_pos h1]
      rfl
    · rw [if_neg h1, if_neg h1]
      by_cases h2 : (!is_alphanumeric (l.headD 0)) = true
      · rw [if_pos h2, if_pos h2]
        rfl
      · rw [if_neg h2, if_neg h2]
        by_cases h3 : (!(l.getLastD 0 == 46)) = true
        · rw [if_pos h3, if_pos h3]
          rfl
        · rw [if_neg h3, if_neg h3]
          by_cases h4 : (!is_modified_restricted_name l.dropLast) = true
          · rw [if_pos h4, if_pos h4]
            rfl
          · rw [if_neg h4, if_neg h4]
            rfl

theorem alt_subtype_agrees (l : List Nat) :
    alt.media_subtype.make l =
      (subtype.make l).map (fun v => (⟨v.value⟩ : alt.media_subtype)) := by
  unfold alt.media_subtype.make subtype.make
  have hres : alt.allowed_characters l [33, 35, 36, 38, 45, 94, 95, 46, 43] =
      is_restricted_name l := rfl
  rw [hres]
  by_cases h1 : (l.isEmpty || decide (127 < l.length)) = true
  · rw [if_pos h1, if_pos h1]
    rfl
  · rw [if_neg h1, if_neg h1]
    by_cases h2 : (!is_alphanumeric (l.headD 0)) = true
    · rw [if_pos h2, if_pos h2]
      rfl
    · rw [if_neg h2, if_neg h2]
      by_cases h3 : (!is_restricted_name l) = true
      · rw [if_pos h3, if_pos h3]
        rfl
      · rw [if_neg h3, if_neg h3]
        rfl

theorem alt_suffix_agrees (l : List Nat) :
    alt.media_suffix.make l =
      (suffix.make l).map (fun v => (⟨v.value⟩ : alt.media_suffix)) := by
  unfold alt.media_suffix.make suffix.make
  have hres : alt.allowed_characters (l.drop 1) [33, 35, 36, 38, 45, 94, 95] =
      is_modified_restricted_name (l.drop 1) := rfl
  rw [hres]
  by_cases h1 : (decide (l.length < 2) || decide (127 < l.length)) = true
  · rw [if_pos h1, if_pos h1]
    rfl
  · rw [if_neg h1, if_neg h1]
    by_cases h2 : (!(l.headD 0 == 43)) = true
    · rw [if_pos h2, if_pos h2]
      rfl
    · rw [if_neg h2, if_neg h2]
      by_cases h3 : (!is_alphanumeric ((l.drop 1).headD 0)) = true
      · rw [if_pos h3, if_pos h3]
        rfl
      · rw [if_neg h3, if_neg h3]
        by_cases h4 : (!is_modified_restricted_name (l.drop 1)) = true
        · rw [if_pos h4, if_pos h4]
          rfl
        · rw [if_neg h4, if_neg h4]
          rfl

/-- Specification-level success condition shared by the two parser
encodings: the slice splits succeed and the component validators accept. -/
def parseOk (raw : List Nat) : Bool :=
  match splitAtFirst 47 (raw.takeWhile (fun c => !(c == 59))) with
  | none => false
  | some (tyS, rest1) =>
    match treeSplit rest1 with
    | Except.error _ => false
    | Except.ok (trS, rest2) =>
      match splitAtLast 43 rest2 with
      | (subS, sufS) =>
        (type.make tyS).isOk && (tree.make trS).isOk && (subtype.make subS).isOk &&
          (sufS.isEmpty || (suffix.make sufS).isOk)

theorem parser_isOk (raw : List Nat) :
    (media_type.parser raw).isOk = parseOk raw := by
  unfold media_type.parser parseOk
  cases hs : splitAtFirst 47 (raw.takeWhile (fun c => !(c == 59))) with
  | none => rfl
  | some p =>
    obtain ⟨tyS, rest1⟩ := p
    simp only []
    cases ht : treeSplit rest1 with
    | error e => rfl
    | ok q =>
      obtain ⟨trS, rest2⟩ := q
      simp only []
      rcases hsl : splitAtLast 43 rest2 with ⟨subS, sufS⟩
      simp only []
      rcases hty : type.make tyS with e1 | ty <;>
        rcases htr : tree.make trS with e2 | tr <;>
          rcases hsub : subtype.make subS with e3 | sub <;>
            rcases hsuf : suffix.make sufS with e4 | sv <;>
              by_cases hemp : sufS.isEmpty = true <;>
                simp [hty, htr, hsub, hsuf, hemp, Except.isOk, Except.toBool, Except.map]

theorem alt_parser_isOk (raw : List Nat) :
    (alt.media_type.parser raw).isOk = parseOk raw := by
  unfold alt.media_type.parser parseOk
  cases hs : splitAtFirst 47 (raw.takeWhile (fun c => !(c == 59))) with
  | none => rfl
  | some p =>
    obtain ⟨tyS, rest1⟩ := p
    simp only []
    rw [alt_top_type_agrees tyS]
    cases ht : treeSplit rest1 with
    | error e =>
      rcases hty : type.make tyS with e1 | ty <;>
        simp [hty, Except.isOk, Except.toBool, Except.map]
    | ok q =>
      obtain ⟨trS, rest2⟩ := q
      simp only []
      rw [alt_tree_agrees trS]
      rcases hsl : splitAtLast 43 rest2 with ⟨subS, sufS⟩
      simp only []
      rw [alt_subtype_agrees subS, alt_suffix_agrees sufS]
      rcases hty : type.make tyS with e1 | ty <;>
        rcases htr : tree.make trS with e2 | tr <;>
          rcases hsub : subtype.make subS with e3 | sub <;>
            rcases hsuf : suffix.make sufS with e4 | sv <;>
              by_cases hemp : sufS.isEmpty = true <;>
                simp [hty, htr, hsub, hsuf, hemp, Except.isOk, Except.toBool, Except.map]

theorem alt_parser_build (raw : List Nat) (tyS rest1 trS rest2 subS sufS : List Nat)
    (ty : alt.media_top_type) (tr : alt.media_tree) (sub : alt.media_subtype)
    (suf : Option alt.media_suffix)
    (hs : splitAtFirst 47 (raw.takeWhile (fun c => !(c == 59))) = some (tyS, rest1))
    (hty : alt.media_top_type.make tyS = Except.ok ty)
    (ht : treeSplit rest1 = Except.ok (trS, rest2))
    (htr : alt.media_tree.make trS = Except.ok tr)
    (hsl : splitAtLast 43 rest2 = (subS, sufS))
    (hsub : alt.media_subtype.make subS = Except.ok sub)
    (hsuf : (if sufS.isEmpty then Except.ok Option.none
        else Except.map Option.some (alt.media_suffix.make sufS) :
        Except String (Option alt.media_suffix)) = Except.ok suf) :
    alt.media_type.parser raw = Except.ok ⟨ty, tr, sub, suf⟩ := by
  unfold alt.media_type.parser
  rw [hs]
  simp only []
  rw [hty]
  simp only []
  rw [ht]
  simp only []
  rw [htr]
  simp only []
  rw [hsl]
  simp only []
  rw [hsub]
  simp only []
  rw [hsuf]

theorem suffix_make_nonempty (l : List Nat) (v : suffix) (h : suffix.make l = Except.ok v) :
    l.isEmpty = false := by
  cases l with
  | nil =>
    exfalso
    have hbad : suffix.make [] =
        Except.error ("media type: suffix: lenght required to be [2..127] characters") := rfl
    rw [hbad] at h
    cases h
  | cons a t => rfl

theorem parser_value_correspondence (raw : List Nat) (m : media_type) (m2 : alt.media_type)
    (hm : media_type.parser raw = Except.ok m)
    (hm2 : alt.media_type.parser raw = Except.ok m2) :
    m.type.value = m2.type.value ∧ m.tree.value = m2.tree.value ∧
    m.subtype.value = m2.subtype.value ∧
    m.suffix.map suffix.value = m2.suffix.map alt.media_suffix.value ∧
    m.str = m2.str := by
  obtain ⟨tyS, rest1, trS, rest2, subS, sufS, hs, ht, hsl, hty, htr, hsub, hsuf⟩ :=
    parser_ok_inversion raw m hm
  have hty2 : alt.media_top_type.make tyS = Except.ok ⟨m.type.value⟩ := by
    rw [alt_top_type_agrees, hty]
    rfl
  have htr2 : alt.media_tree.make trS = Except.ok ⟨m.tree.value⟩ := by
    rw [alt_tree_agrees, htr]
    rfl
  have hsub2 : alt.media_subtype.make subS = Except.ok ⟨m.subtype.value⟩ := by
    rw [alt_subtype_agrees, hsub]
    rfl
  have hsuf2 : (if sufS.isEmpty then Except.ok Option.none
      else Except.map Option.some (alt.media_suffix.make sufS) :
      Except String (Option alt.media_suffix)) =
      Except.ok (m.suffix.map (fun s => (⟨s.value⟩ : alt.media_suffix))) := by
    rcases hsuf with ⟨hnil, hnone⟩ | ⟨v, hmk, hsome⟩
    · rw [hnone, hnil]
      rfl
    · have hemp : sufS.isEmpty = false := suffix_make_nonempty sufS v hmk
      rw [if_neg (by simp [hemp]), alt_suffix_agrees, hmk, hsome]
      rfl
  have hbuild := alt_parser_build raw tyS rest1 trS rest2 subS sufS
    ⟨m.type.value⟩ ⟨m.tree.value⟩ ⟨m.subtype.value⟩
    (m.suffix.map (fun s => (⟨s.value⟩ : alt.media_suffix)))
    hs hty2 ht htr2 hsl hsub2 hsuf2
  rw [hm2] at hbuild
  injection hbuild with h1
  rw [h1]
  refine ⟨rfl, rfl, rfl, ?_, ?_⟩
  · cases m.suffix <;> rfl
  · unfold media_type.str alt.media_type.str
    cases m.suffix <;> rfl

end rfc6838

end common_good

open common_good

/-- C1: round trip — for every input string that contains no semicolon and
from which media_type construction succeeds, the canonical string form of
the constructed media_type equals the input with every ASCII uppercase
letter replaced by its lowercase counterpart. -/
theorem C1_roundtrip (l : List Nat) (m : rfc6838.media_type) (hsemi : 59 ∉ l)
    (h : rfc6838.media_type.parser l = Except.ok m) :
    m.str = l.map ascii.to_lowercase :=
  rfc6838.parser_roundtrip l m hsemi h

/-- C1 witness: the concrete round trip at the mixed-case input
Application/VND.API+JSON. -/
theorem C1_roundtrip_witness :
    rfc6838.media_type.parser (codes ("Application/VND.API+JSON")) =
      Except.ok (⟨⟨codes ("application")⟩, ⟨codes ("vnd.")⟩, ⟨codes ("api")⟩,
        Option.some ⟨codes ("+json")⟩⟩ : rfc6838.media_type) ∧
    (⟨⟨codes ("application")⟩, ⟨codes ("vnd.")⟩, ⟨codes ("api")⟩,
        Option.some ⟨codes ("+json")⟩⟩ : rfc6838.media_type).str =
      (codes ("Application/VND.API+JSON")).map ascii.to_lowercase :=
  ⟨rfl, C1_roundtrip _ _ (by decide) rfl⟩

/-- C2 counterexample: on the input =/x+~ both encodings fail, but with
different messages — media_type.hpp validates the suffix before the
top-level type, the unnamed encoding validates the top-level type first —
so the claim that they always carry the same message is false. -/
theorem C2_counterexample :
    rfc6838.media_type.parser (codes ("=/x+~")) =
      Except.error ("media type: suffix: second character required to be alphanumeric") ∧
    alt.media_type.parser (codes ("=/x+~")) =
      Except.error ("media type: top-level type: first character required to be alphanumeric") ∧
    ("media type: suffix: second character required to be alphanumeric" : String) ≠
      ("media type: top-level type: first character required to be alphanumeric" : String) :=
  ⟨rfl, rfl, by decide⟩

/-- C2 amended: for every input string the two encodings either both fail
with a ParsingError — possibly carrying different messages, since the
encodings validate the components in different orders — or both succeed,
producing the same normalized type, tree, subtype and optional-suffix
strings and the same canonical string output. -/
theorem C2_amended (raw : List Nat) :
    ((rfc6838.media_type.parser raw).isOk = (alt.media_type.parser raw).isOk) ∧
    (∀ (m : rfc6838.media_type) (m2 : alt.media_type),
      rfc6838.media_type.parser raw = Except.ok m →
      alt.media_type.parser raw = Except.ok m2 →
      m.type.value = m2.type.value ∧ m.tree.value = m2.tree.value ∧
      m.subtype.value = m2.subtype.value ∧
      m.suffix.map rfc6838.suffix.value = m2.suffix.map alt.media_suffix.value ∧
      m.str = m2.str) := by
  refine ⟨?_, ?_⟩
  · rw [rfc6838.parser_isOk, rfc6838.alt_parser_isOk]
  · intro m m2 hm hm2
    exact rfc6838.parser_value_correspondence raw m m2 hm hm2

/-- C2 witness: both encodings accept text/plain and the resulting
component strings and canonical strings agree. -/
theorem C2_amended_witness :
    (⟨⟨codes ("text")⟩, ⟨[]⟩, ⟨codes ("plain")⟩, Option.none⟩ :
        rfc6838.media_type).type.value =
      (⟨⟨codes ("text")⟩, ⟨[]⟩, ⟨codes ("plain")⟩, Option.none⟩ :
        alt.media_type).type.value ∧
    (⟨⟨codes ("text")⟩, ⟨[]⟩, ⟨codes ("plain")⟩, Option.none⟩ :
        rfc6838.media_type).tree.value =
      (⟨⟨codes ("text")⟩, ⟨[]⟩, ⟨codes ("plain")⟩, Option.none⟩ :
        alt.media_type).tree.value ∧
    (⟨⟨codes ("text")⟩, ⟨[]⟩, ⟨codes ("plain")⟩, Option.none⟩ :
        rfc6838.media_type).subtype.value =
      (⟨⟨codes ("text")⟩, ⟨[]⟩, ⟨codes ("plain")⟩, Option.none⟩ :
        alt.media_type).subtype.value ∧
    (⟨⟨codes ("text")⟩, ⟨[]⟩, ⟨codes ("plain")⟩, Option.none⟩ :
        rfc6838.media_type).suffix.map rfc6838.suffix.value =
      (⟨⟨codes ("text")⟩, ⟨[]⟩, ⟨codes ("plain")⟩, Option.none⟩ :
        alt.media_type).suffix.map alt.media_suffix.value ∧
    (⟨⟨codes ("text")⟩, ⟨[]⟩, ⟨codes ("plain")⟩, Option.none⟩ :
        rfc6838.media_type).str =
      (⟨⟨codes ("text")⟩, ⟨[]⟩, ⟨codes ("plain")⟩, Option.none⟩ :
        alt.media_type).str :=
  (C2_amended (codes ("text/plain"))).2 _ _ rfl rfl

/-- C3 counterexample: after the slash of the input application/ the
remainder is empty, so no dot exists in it, yet the tree step does not
produce the empty standard tree with the remainder passed on unchanged —
it fails, and the whole parse fails with the missing-tree error. -/
theorem C3_counterexample :
    46 ∉ ([] : List Nat) ∧
    rfc6838.treeSplit [] ≠ Except.ok ([], []) ∧
    rfc6838.treeSplit [] =
      Except.error ("media type: parsing: missing tree between \x27/\x27 and \x27.\x27") ∧
    rfc6838.media_type.parser (codes ("application/")) =
      Except.error ("media type: parsing: missing tree between \x27/\x27 and \x27.\x27") := by
  refine ⟨by simp, ?_, rfl, rfl⟩
  intro h
  rw [rfc6838.treeSplit_nil] at h
  cases h

/-- C3 amended: tree extraction — when the remainder after the slash is
empty or has the dot as its very first character, the parse fails with the
missing-tree error; when the remainder is non-empty and contains no dot the
tree is the empty standard tree and the remainder passes unchanged to the
subtype step; otherwise the part of the remainder through and including the
first dot is consumed as the tree candidate; a failing tree step is the
result of the whole parse. -/
theorem C3_amended :
    rfc6838.treeSplit [] =
      Except.error ("media type: parsing: missing tree between \x27/\x27 and \x27.\x27") ∧
    (∀ b : List Nat, rfc6838.treeSplit (46 :: b) =
      Except.error ("media type: parsing: missing tree between \x27/\x27 and \x27.\x27")) ∧
    (∀ l : List Nat, l ≠ [] → 46 ∉ l → rfc6838.treeSplit l = Except.ok ([], l)) ∧
    (∀ a b : List Nat, a ≠ [] → 46 ∉ a →
      rfc6838.treeSplit (a ++ 46 :: b) = Except.ok (a ++ [46], b)) ∧
    (∀ (raw tyS rest1 : List Nat) (e : String),
      rfc6838.splitAtFirst 47 (raw.takeWhile (fun c => !(c == 59))) = some (tyS, rest1) →
      rfc6838.treeSplit rest1 = Except.error e →
      rfc6838.media_type.parser raw = Except.error e) :=
  ⟨rfc6838.treeSplit_nil, rfc6838.treeSplit_head_dot, rfc6838.treeSplit_no_dot,
   rfc6838.treeSplit_with_dot, rfc6838.parser_tree_error⟩

/-- C3 witness: tree extraction evaluated at the inputs plain (no dot),
vnd.api (inner dot) and application/.json (leading dot, full parse). -/
theorem C3_amended_witness :
    rfc6838.treeSplit (codes ("plain")) = Except.ok ([], codes ("plain")) ∧
    rfc6838.treeSplit (codes ("vnd") ++ 46 :: codes ("api")) =
      Except.ok (codes ("vnd") ++ [46], codes ("api")) ∧
    rfc6838.media_type.parser (codes ("application/.json")) =
      Except.error ("media type: parsing: missing tree between \x27/\x27 and \x27.\x27") :=
  ⟨C3_amended.2.2.1 (codes ("plain")) (by decide) (by decide),
   C3_amended.2.2.2.1 (codes ("vnd")) (codes ("api")) (by decide) (by decide),
   C3_amended.2.2.2.2 (codes ("application/.json")) (codes ("application"))
     (codes (".json")) _ rfl rfl⟩

/-- C4: the suffix split uses the last plus — the subtype candidate is
everything before the last plus of the remaining slice and the suffix
candidate runs from that plus to the end, empty (hence no suffix) when no
plus exists; application/x+y+json parses with subtype x+y and suffix
+json, and an input with no plus yields an absent suffix, not an error. -/
theorem C4_last_plus :
    (∀ a b : List Nat, 43 ∉ b →
      rfc6838.splitAtLast 43 (a ++ 43 :: b) = (a, 43 :: b)) ∧
    (∀ l : List Nat, 43 ∉ l → rfc6838.splitAtLast 43 l = (l, [])) ∧
    (∀ (raw : List Nat) (m : rfc6838.media_type),
      rfc6838.media_type.parser raw = Except.ok m →
      43 ∉ raw.takeWhile (fun c => !(c == 59)) → m.suffix = Option.none) ∧
    rfc6838.media_type.parser (codes ("application/x+y+json")) =
      Except.ok ⟨⟨codes ("application")⟩, ⟨[]⟩, ⟨codes ("x+y")⟩,
        Option.some ⟨codes ("+json")⟩⟩ ∧
    rfc6838.media_type.parser (codes ("text/plain")) =
      Except.ok ⟨⟨codes ("text")⟩, ⟨[]⟩, ⟨codes ("plain")⟩, Option.none⟩ :=
  ⟨rfc6838.splitAtLast_append_last 43, rfc6838.splitAtLast_not_mem 43,
   rfc6838.parser_no_plus_suffix, rfl, rfl⟩

/-- C4 witness: the split applied at the slice x+y+json (last plus wins)
and at plain (no plus), and the absent suffix of parsed text/plain. -/
theorem C4_last_plus_witness :
    rfc6838.splitAtLast 43 (codes ("x+y") ++ 43 :: codes ("json")) =
      (codes ("x+y"), 43 :: codes ("json")) ∧
    rfc6838.splitAtLast 43 (codes ("plain")) = (codes ("plain"), []) ∧
    (⟨⟨codes ("text")⟩, ⟨[]⟩, ⟨codes ("plain")⟩, Option.none⟩ :
      rfc6838.media_type).suffix = Option.none :=
  ⟨C4_last_plus.1 (codes ("x+y")) (codes ("json")) (by decide),
   C4_last_plus.2.1 (codes ("plain")) (by decide),
   C4_last_plus.2.2.1 (codes ("text/plain")) _ rfl (by decide)⟩

/-- C5: for every input string whose portion before the first semicolon
contains no slash, media_type construction fails with the
missing-delimiter error. -/
theorem C5_missing_delimiter (raw : List Nat)
    (h : 47 ∉ raw.takeWhile (fun c => !(c == 59))) :
    rfc6838.media_type.parser raw =
      Except.error ("media type: parsing: missing delimiter \x27/\x27 after type") :=
  rfc6838.parser_no_slash raw h

/-- C5 witness: the concrete input application.json fails with the
missing-delimiter error. -/
theorem C5_missing_delimiter_witness :
    rfc6838.media_type.parser (codes ("application.json")) =
      Except.error ("media type: parsing: missing delimiter \x27/\x27 after type") :=
  C5_missing_delimiter (codes ("application.json")) (by decide)

/-- C6: length boundaries — any 128-character string is rejected by every
component validator with its length error; an otherwise-valid 127-character
string is accepted by each of the four core validators; the empty string
fails for the top-level type and subtype constructors but succeeds for the
tree constructor, yielding the standard (empty) tree. -/
theorem C6_length_boundaries :
    (∀ l : List Nat, l.length = 128 → rfc6838.type.make l =
      Except.error ("media type: top-level type: lenght required to be [1..127] characters")) ∧
    (∀ l : List Nat, l.length = 128 → rfc6838.tree.make l =
      Except.error ("media type: tree: lenght required to be [2..127] characters")) ∧
    (∀ l : List Nat, l.length = 128 → rfc6838.subtype.make l =
      Except.error ("media type: subtype: lenght required to be [1..127] characters")) ∧
    (∀ l : List Nat, l.length = 128 → rfc6838.suffix.make l =
      Except.error ("media type: suffix: lenght required to be [2..127] characters")) ∧
    (∀ l : List Nat, l.length = 128 → rfc6838.parameter_name.make l =
      Except.error ("media type: parameter name: lenght required to be [1..127] characters")) ∧
    (∀ l : List Nat, l.length = 128 → rfc6838.parameter_value.make l =
      Except.error ("media type: parameter value: lenght required to be [1..127] characters")) ∧
    (∀ l : List Nat, l.length = 127 →
      ascii.is_alphanumeric (l.headD 0) = true → rfc6838.is_restricted_name l = true →
      rfc6838.type.make l = Except.ok ⟨l.map ascii.to_lowercase⟩) ∧
    (∀ l : List Nat, l.length = 127 →
      ascii.is_alphanumeric (l.headD 0) = true → l.getLastD 0 = 46 →
      rfc6838.is_modified_restricted_name l.dropLast = true →
      rfc6838.tree.make l = Except.ok ⟨l.map ascii.to_lowercase⟩) ∧
    (∀ l : List Nat, l.length = 127 →
      ascii.is_alphanumeric (l.headD 0) = true → rfc6838.is_restricted_name l = true →
      rfc6838.subtype.make l = Except.ok ⟨l.map ascii.to_lowercase⟩) ∧
    (∀ l : List Nat, l.length = 127 → l.headD 0 = 43 →
      ascii.is_alphanumeric ((l.drop 1).headD 0) = true →
      rfc6838.is_modified_restricted_name (l.drop 1) = true →
      rfc6838.suffix.make l = Except.ok ⟨l.map ascii.to_lowercase⟩) ∧
    rfc6838.type.make [] =
      Except.error ("media type: top-level type: lenght required to be [1..127] characters") ∧
    rfc6838.subtype.make [] =
      Except.error ("media type: subtype: lenght required to be [1..127] characters") ∧
    rfc6838.tree.make [] = Except.ok ⟨[]⟩ := by
  have hne : ∀ l : List Nat, l.length = 128 → l.isEmpty = false := by
    intro l hl
    cases l with
    | nil => simp at hl
    | cons a t => rfl
  have hne7 : ∀ l : List Nat, l.length = 127 → l.isEmpty = false := by
    intro l hl
    cases l with
    | nil => simp at hl
    | cons a t => rfl
  refine ⟨?_, ?_, ?_, ?_, ?_, ?_, ?_, ?_, ?_, ?_, rfl, rfl, rfl⟩
  · intro l hl
    unfold rfc6838.type.make
    rw [hne l hl, hl]
    simp
  · intro l hl
    unfold rfc6838.tree.make
    rw [hne l hl, hl]
    simp
  · intro l hl
    unfold rfc6838.subtype.make
    rw [hne l hl, hl]
    simp
  · intro l hl
    unfold rfc6838.suffix.make
    rw [hl]
    simp
  · intro l hl
    unfold rfc6838.parameter_name.make
    rw [hne l hl, hl]
    simp
  · intro l hl
    unfold rfc6838.parameter_value.make
    rw [hne l hl, hl]
    simp
  · intro l hl hhead hres
    unfold rfc6838.type.make
    rw [hne7 l hl, hl, hhead, hres]
    simp
  · intro l hl hhead hback hmod
    unfold rfc6838.tree.make
    rw [hne7 l hl, hl, hhead, hback, hmod]
    simp
  · intro l hl hhead hres
    unfold rfc6838.subtype.make
    rw [hne7 l hl, hl, hhead, hres]
    simp
  · intro l hl hhead hsecond hmod
    unfold rfc6838.suffix.make
    rw [hl, hhead, hsecond, hmod]
    simp

/-- C6 witness: the boundaries evaluated at concrete strings of 128, 127
and 0 characters for each core validator. -/
theorem C6_length_boundaries_witness :
    rfc6838.type.make (List.replicate 128 97) =
      Except.error ("media type: top-level type: lenght required to be [1..127] characters") ∧
    rfc6838.tree.make (List.replicate 127 97 ++ [46]) =
      Except.error ("media type: tree: lenght required to be [2..127] characters") ∧
    rfc6838.subtype.make (List.replicate 128 97) =
      Except.error ("media type: subtype: lenght required to be [1..127] characters") ∧
    rfc6838.suffix.make (43 :: List.replicate 127 97) =
      Except.error ("media type: suffix: lenght required to be [2..127] characters") ∧
    rfc6838.parameter_name.make (List.replicate 128 97) =
      Except.error ("media type: parameter name: lenght required to be [1..127] characters") ∧
    rfc6838.parameter_value.make (List.replicate 128 97) =
      Except.error ("media type: parameter value: lenght required to be [1..127] characters") ∧
    rfc6838.type.make (List.replicate 127 97) =
      Except.ok ⟨(List.replicate 127 97).map ascii.to_lowercase⟩ ∧
    rfc6838.tree.make (List.replicate 126 97 ++ [46]) =
      Except.ok ⟨(List.replicate 126 97 ++ [46]).map ascii.to_lowercase⟩ ∧
    rfc6838.subtype.make (List.replicate 127 97) =
      Except.ok ⟨(List.replicate 127 97).map ascii.to_lowercase⟩ ∧
    rfc6838.suffix.make (43 :: List.replicate 126 97) =
      Except.ok ⟨(43 :: List.replicate 126 97).map ascii.to_lowercase⟩ :=
  ⟨C6_length_boundaries.1 _ (by decide),
   C6_length_boundaries.2.1 _ (by decide),
   C6_length_boundaries.2.2.1 _ (by decide),
   C6_length_boundaries.2.2.2.1 _ (by decide),
   C6_length_boundaries.2.2.2.2.1 _ (by decide),
   C6_length_boundaries.2.2.2.2.2.1 _ (by decide),
   C6_length_boundaries.2.2.2.2.2.2.1 _ (by decide) (by decide) (by decide),
   C6_length_boundaries.2.2.2.2.2.2.2.1 _ (by decide) (by decide) (by decide) (by decide),
   C6_length_boundaries.2.2.2.2.2.2.2.2.1 _ (by decide) (by decide) (by decide),
   C6_length_boundaries.2.2.2.2.2.2.2.2.2.1 _ (by decide) (by decide) (by decide) (by decide)⟩

/-- C7: normalization makes construction case-insensitive — for the four
core component validators, inputs equal up to ASCII case produce identical
results, and media_type built from TEXT/PLAIN equals media_type built from
text/plain. -/
theorem C7_case_insensitive :
    (∀ s t : List Nat, s.map ascii.to_lowercase = t.map ascii.to_lowercase →
      rfc6838.type.make s = rfc6838.type.make t) ∧
    (∀ s t : List Nat, s.map ascii.to_lowercase = t.map ascii.to_lowercase →
      rfc6838.tree.make s = rfc6838.tree.make t) ∧
    (∀ s t : List Nat, s.map ascii.to_lowercase = t.map ascii.to_lowercase →
      rfc6838.subtype.make s = rfc6838.subtype.make t) ∧
    (∀ s t : List Nat, s.map ascii.to_lowercase = t.map ascii.to_lowercase →
      rfc6838.suffix.make s = rfc6838.suffix.make t) ∧
    rfc6838.media_type.parser (codes ("TEXT/PLAIN")) =
      rfc6838.media_type.parser (codes ("text/plain")) ∧
    rfc6838.media_type.parser (codes ("TEXT/PLAIN")) =
      Except.ok ⟨⟨codes ("text")⟩, ⟨[]⟩, ⟨codes ("plain")⟩, Option.none⟩ :=
  ⟨rfc6838.type_make_congr, rfc6838.tree_make_congr, rfc6838.subtype_make_congr,
   rfc6838.suffix_make_congr, rfl, rfl⟩

/-- C7 witness: case-variant agreement evaluated at concrete component
strings. -/
theorem C7_case_insensitive_witness :
    rfc6838.type.make (codes ("TeXt")) = rfc6838.type.make (codes ("text")) ∧
    rfc6838.tree.make (codes ("VND.")) = rfc6838.tree.make (codes ("vnd.")) ∧
    rfc6838.subtype.make (codes ("PLain")) = rfc6838.subtype.make (codes ("plain")) ∧
    rfc6838.suffix.make (codes ("+JSON")) = rfc6838.suffix.make (codes ("+json")) :=
  ⟨C7_case_insensitive.1 _ _ (by decide),
   C7_case_insensitive.2.1 _ _ (by decide),
   C7_case_insensitive.2.2.1 _ _ (by decide),
   C7_case_insensitive.2.2.2.1 _ _ (by decide)⟩

/-- C8: without_suffix clears only the suffix — for every media_type value,
both the copy-producing and the consuming variant equal the media_type
built directly from the same type, tree and subtype with no suffix, the
other fields are unchanged, and the canonical string of the result has no
suffix part. -/
theorem C8_without_suffix (m : rfc6838.media_type) :
    m.without_suffix = rfc6838.media_type.mk m.type m.tree m.subtype Option.none ∧
    m.without_suffix_move = rfc6838.media_type.mk m.type m.tree m.subtype Option.none ∧
    m.without_suffix.type = m.type ∧
    m.without_suffix.tree = m.tree ∧
    m.without_suffix.subtype = m.subtype ∧
    m.without_suffix.suffix = Option.none ∧
    m.without_suffix.str = m.type.value ++ [47] ++ m.tree.value ++ m.subtype.value := by
  refine ⟨rfl, rfl, rfl, rfl, rfl, rfl, ?_⟩
  unfold rfc6838.media_type.str rfc6838.media_type.without_suffix
  simp

/-- C9: parameter_value equality compares the unquoted logical value — for
any two successfully constructed parameter values, equality holds exactly
when the value views (inner content for the quoted form, the whole string
for the bare form) coincide; in particular the bare value foo equals the
quoted value foo. -/
theorem C9_parameter_value_eq :
    (∀ (s t : List Nat) (u v : rfc6838.parameter_value),
      rfc6838.parameter_value.make s = Except.ok u →
      rfc6838.parameter_value.make t = Except.ok v →
      (rfc6838.parameter_value.beq u v = true ↔ u.value_view = v.value_view)) ∧
    (∃ u v : rfc6838.parameter_value,
      rfc6838.parameter_value.make (codes ("foo")) = Except.ok u ∧
      rfc6838.parameter_value.make (codes ("\x22foo\x22")) = Except.ok v ∧
      rfc6838.parameter_value.beq u v = true ∧
      u.value_view = codes ("foo") ∧ v.value_view = codes ("foo")) := by
  refine ⟨?_, ⟨⟨codes ("foo")⟩, ⟨codes ("\x22foo\x22")⟩, rfl, rfl, rfl, rfl, rfl⟩⟩
  intro s t u v hu hv
  unfold rfc6838.parameter_value.beq
  simp

/-- C9 witness: the equality criterion applied to the constructed bare foo
and quoted foo values. -/
theorem C9_parameter_value_eq_witness :
    rfc6838.parameter_value.beq ⟨codes ("foo")⟩ ⟨codes ("\x22foo\x22")⟩ = true ↔
      rfc6838.parameter_value.value_view ⟨codes ("foo")⟩ =
        rfc6838.parameter_value.value_view ⟨codes ("\x22foo\x22")⟩ :=
  C9_parameter_value_eq.1 (codes ("foo")) (codes ("\x22foo\x22")) _ _ rfl rfl

/-- C10: a trailing plus is never a valid suffix boundary — every input
whose portion before the first semicolon ends with the plus character fails
media_type construction with a ParsingError, never succeeding with an
absent suffix. -/
theorem C10_trailing_plus (raw : List Nat)
    (h : (raw.takeWhile (fun c => !(c == 59))).getLast? = some 43) :
    ∃ e, rfc6838.media_type.parser raw = Except.error e :=
  rfc6838.parser_trailing_plus raw h

/-- C10 witness: the concrete input a/b+ fails. -/
theorem C10_trailing_plus_witness :
    ∃ e, rfc6838.media_type.parser (codes ("a/b+")) = Except.error e :=
  C10_trailing_plus (codes ("a/b+")) (by decide)
